import Mathlib

/-!
Verification of the TastMealsAPI order / cart-pricing / loyalty-points core.

Money (Django `DecimalField`) is modelled as exact rationals `ℚ`, timestamps
(`DateTimeField`) as integers `ℤ`, and primary keys as naturals.  The mutable
database rows of a single customer (the shared resources named by the spec)
are collected in one `State` record; each HTTP endpoint of the source becomes
a function `State → Except Err State` (or similar), translated clause by
clause from the view code.  Django signal handlers (`customerend/signals.py`)
run synchronously inside the save that triggers them, so their effect is
inlined into the corresponding operation.
-/

namespace TastyMeals

/-- A `SpecialOffer` row (`cafeadminend/models.py`): discount percentage and
the `[start_date, end_date]` window. -/
structure SpecialOffer where
  discount_percentage : ℚ
  start_date : ℤ
  end_date : ℤ
deriving DecidableEq

/-- `SpecialOffer.is_active` (`cafeadminend/models.py` lines 131-137):
`self.start_date <= now <= self.end_date` (end inclusive). -/
def SpecialOffer.is_active (o : SpecialOffer) (now : ℤ) : Bool :=
  decide (o.start_date ≤ now) && decide (now ≤ o.end_date)

/-- A `CartItem` row (`cart/models.py`): surrogate id, the food item it
references and the quantity. -/
structure CartLine where
  id : ℕ
  fooditem : ℕ
  quantity : ℕ
deriving DecidableEq

/-- `Order.STATUS_CHOICES` (`order/models.py`). -/
inductive OrderStatus
  | PENDING
  | READY
  | COMPLETE
  | DELIVERED
deriving DecidableEq

/-- An `Order` row (`order/models.py` / `customerend/models.py`):
`order_items` is the many-to-many list of `CartItem` primary keys set by
`customerend/views.py PlaceOrderView.post` (the `order/views.py` twin leaves
it empty). -/
structure Order where
  id : ℕ
  total_price : ℚ
  is_paid : Bool
  status : OrderStatus
  dining_table : Option ℕ
  order_items : List ℕ
  updated_at : ℤ
deriving DecidableEq

/-- A `Transaction` row (`customerend/models.py`): the append-only record of a
points award. -/
structure PointsTx where
  amount : ℚ
  points_earned : ℕ
deriving DecidableEq

/-- `RedemptionTransaction.STATUS_CHOICES` (`rewards/models.py`). -/
inductive RedStatus
  | PENDING
  | DELIVERED
deriving DecidableEq

/-- A `RedemptionOption` row (`rewards/models.py`). -/
structure RedemptionOption where
  id : ℕ
  points_required : ℕ
deriving DecidableEq

/-- A `RedemptionTransaction` row (`rewards/models.py`):
`redemption_option` is a nullable foreign key (`on_delete=SET_NULL`). -/
structure RedemptionTx where
  id : ℕ
  customer : ℕ
  redemption_option : Option ℕ
  points_redeemed : ℕ
  status : RedStatus
  created_at : ℤ
deriving DecidableEq

/-- A `Review` row (`review/models.py` / `customerend/models.py`). -/
structure Review where
  id : ℕ
  order : ℕ
  rating : ℕ
deriving DecidableEq

/-- The database rows reachable from one customer: the catalog price table and
offer table (read by pricing), the cart with its cached `Cart.total_price`
field, the orders, the loyalty balance (`CustomerLoyaltyPoint.points`) with
its transaction history, the reward catalog with redemption history, reviews
and dining tables.  `nextId` supplies fresh primary keys. -/
structure State where
  itemPrice : ℕ → ℚ
  offers : ℕ → Option SpecialOffer
  cartLines : List CartLine
  cart_total : ℚ
  orders : List Order
  points : ℕ
  pointsTxs : List PointsTx
  redemptionOptions : List RedemptionOption
  redemptions : List RedemptionTx
  reviews : List Review
  tables : List ℕ
  nextId : ℕ

/-- The error responses of the modelled endpoints (each constructor is one
distinct non-2xx response of the source views). -/
inductive Err
  | emptyCart
  | alreadyPaid
  | orderNotFound
  | tableRequired
  | tableNotFound
  | duplicateLine
  | lineNotFound
  | insufficientPoints
  | optionNotFound
  | alreadyReviewed
  | notPaid
  | wrongDay
  | reviewNotFound
deriving DecidableEq

/-- `CartItem.price` (`cart/models.py` lines 72-87, identical twin in
`customerend/models.py`): start from `fooditem.price`; if a `SpecialOffer`
row for the food item exists, subtract `discount_percentage / 100 * price`;
a missing row (`SpecialOffer.DoesNotExist`) leaves the base price.  The
offer's window is never consulted here. -/
def CartLine.price (st : State) (l : CartLine) : ℚ :=
  let price := st.itemPrice l.fooditem
  match st.offers l.fooditem with
  | some offer => price - offer.discount_percentage / 100 * price
  | none => price

/-- `CartItem.total_price` (`cart/models.py` lines 89-94): `price * quantity`. -/
def CartLine.total_price (st : State) (l : CartLine) : ℚ :=
  CartLine.price st l * l.quantity

/-- The sum recomputed by the `post_save` / `post_delete` signal handlers on
`CartItem` (`customerend/signals.py` lines 13-33):
`sum(item.total_price for item in cart.cartitems.all())`. -/
def freshCartTotal (st : State) : ℚ :=
  (st.cartLines.map (fun l => CartLine.total_price st l)).sum

/-- Write the recomputed sum into the cached `Cart.total_price` field, as the
signal handlers do after every `CartItem` save or delete. -/
def recacheTotal (st : State) : State :=
  { st with cart_total := freshCartTotal st }

/-- `CartAPIView.get` (`cart/views.py` lines 96-108): the total reported when
the cart is viewed is the cached `cart.total_price` field. -/
def viewCartTotal (st : State) : ℚ :=
  st.cart_total

/-- `AddItemToCartAPIView.post` (`cart/views.py` lines 47-75): reject when a
line for the food item already exists, otherwise insert the line; the
`post_save` signal then refreshes the cached total. -/
def addItemToCart (st : State) (fooditem : ℕ) (quantity : ℕ) : Except Err State :=
  if st.cartLines.any (fun l => l.fooditem == fooditem) then
    .error .duplicateLine
  else
    .ok (recacheTotal { st with
      cartLines := st.cartLines ++ [⟨st.nextId, fooditem, quantity⟩],
      nextId := st.nextId + 1 })

/-- `CartItemDetailAPIView.patch` (`cart/views.py` lines 131-144): replace the
quantity of an existing line; the `post_save` signal refreshes the cached
total. -/
def updateCartItem (st : State) (lineId : ℕ) (quantity : ℕ) : Except Err State :=
  if st.cartLines.any (fun l => l.id == lineId) then
    .ok (recacheTotal { st with
      cartLines := st.cartLines.map (fun l =>
        if l.id == lineId then { l with quantity := quantity } else l) })
  else
    .error .lineNotFound

/-- `CartItemDetailAPIView.delete` (`cart/views.py` lines 154-161): delete the
line; the `post_delete` signal refreshes the cached total. -/
def deleteCartItem (st : State) (lineId : ℕ) : Except Err State :=
  if st.cartLines.any (fun l => l.id == lineId) then
    .ok (recacheTotal { st with
      cartLines := st.cartLines.filter (fun l => !(l.id == lineId)) })
  else
    .error .lineNotFound

/-- `SpecialOfferCreateAPIView.post` (`cafeadminend/views.py`): store an offer
for a food item.  No signal touches the cached cart total here. -/
def setOffer (st : State) (fooditem : ℕ) (offer : SpecialOffer) : State :=
  { st with offers := fun i => if i == fooditem then some offer else st.offers i }

/-- `PlaceOrderView.post` (`customerend/views.py` lines 290-328, twin at
`order/views.py` lines 43-82): reject an empty cart; otherwise create an
order from the cached `cart.total_price` with the model defaults
`status="PENDING"`, `is_paid=False`, link the live `CartItem` rows into the
many-to-many `order_items`, then delete every cart line
(`cart.cartitems.all().delete()`), whose `post_delete` signals leave the
cached total at the sum over the now-empty cart. -/
def placeOrder (st : State) (now : ℤ) : Except Err (ℕ × State) :=
  if st.cartLines.isEmpty then
    .error .emptyCart
  else
    let oid := st.nextId
    let order : Order :=
      { id := oid, total_price := st.cart_total, is_paid := false,
        status := .PENDING, dining_table := none,
        order_items := st.cartLines.map (fun l => l.id), updated_at := now }
    .ok (oid, recacheTotal { st with
      orders := st.orders ++ [order], cartLines := [], nextId := oid + 1 })

/-- The cart-line rows an order's `order_items` keys can still be resolved to:
a Django many-to-many join row disappears with the `CartItem` it points at,
so only keys of still-existing lines resolve. -/
def orderSnapshot (st : State) (o : Order) : List CartLine :=
  st.cartLines.filter (fun l => o.order_items.contains l.id)

/-- Python's `Decimal` floor-division `//` truncates the true quotient toward
zero. -/
def truncQ (x : ℚ) : ℤ :=
  if 0 ≤ x then ⌊x⌋ else ⌈x⌉

/-- `award_customer_points` (`customerend/myutils.py` lines 3-21):
`points_earned = int(order.total_price // 100)`; only when positive, add it
to `CustomerLoyaltyPoint.points` and append a `Transaction` row. -/
def award_customer_points (st : State) (total : ℚ) : State :=
  let points_earned : ℤ := truncQ (total / 100)
  if 0 < points_earned then
    { st with points := st.points + points_earned.toNat,
              pointsTxs := st.pointsTxs ++ [⟨total, points_earned.toNat⟩] }
  else st

/-- `PaymentView.post` (`payment/views.py` lines 47-97, twin at
`customerend/views.py` lines 395-441): look up the order; reject when
`is_paid` is already true; require a resolvable dining table; then attach
the table, set `is_paid=True` and save.  Saving flips `is_paid` from false
to true, so the `pre_save` receiver `award_loyalty_points`
(`customerend/signals.py` lines 77-86) runs `award_customer_points` inside
the same save; `auto_now` stamps `updated_at` with the present instant. -/
def paymentPost (st : State) (oid : ℕ) (dining_table : Option ℕ) (now : ℤ) :
    Except Err State :=
  match st.orders.find? (fun o => o.id == oid) with
  | none => .error .orderNotFound
  | some order =>
    if order.is_paid then
      .error .alreadyPaid
    else
      match dining_table with
      | none => .error .tableRequired
      | some t =>
        if st.tables.contains t then
          let st' := award_customer_points st order.total_price
          .ok { st' with orders := st'.orders.map (fun o =>
            if o.id == oid then
              { o with is_paid := true, dining_table := some t, updated_at := now }
            else o) }
        else .error .tableNotFound

/-- `CancelOrderView.post` (`order/views.py` lines 157-181, twin at
`customerend/views.py` lines 368-391): `Order.objects.get(id=order_id, user=
request.user, is_paid=False)` — the lookup itself is restricted to unpaid
orders, so a paid order falls into the `DoesNotExist` branch and the view
answers 404 "Order not found"; an unpaid match is deleted. -/
def cancelOrder (st : State) (oid : ℕ) : Except Err State :=
  match st.orders.find? (fun o => o.id == oid && !o.is_paid) with
  | none => .error .orderNotFound
  | some _ =>
    .ok { st with orders := st.orders.filter (fun o => !(o.id == oid && !o.is_paid)) }

/-- Rank of a status in the spec's forward ordering
PENDING → READY → COMPLETE → DELIVERED. -/
def statusRank : OrderStatus → ℕ
  | .PENDING => 0
  | .READY => 1
  | .COMPLETE => 2
  | .DELIVERED => 3

/-- The only status write the repository offers: a plain model save of any
chosen `STATUS_CHOICES` value through the registered Django admin
(`customerend/admin.py` registers `Order` with no `ModelAdmin`); the model
(`order/models.py` lines 39-56) has no transition validation and the
API serializers mark `status` read-only.  The `pre_save` receiver
`order_status_change_notification` only emits a notification. -/
def adminSetStatus (st : State) (oid : ℕ) (s : OrderStatus) (now : ℤ) :
    Except Err State :=
  if st.orders.any (fun o => o.id == oid) then
    .ok { st with orders := st.orders.map (fun o =>
      if o.id == oid then { o with status := s, updated_at := now } else o) }
  else .error .orderNotFound

/-- `RedeemLoyaltyPointsAPIView.post` (`customerend/views.py` lines 670-704):
fetch the redemption option (an uncaught `DoesNotExist` aborts with nothing
written); reject when the balance is below `points_required`; otherwise
deduct the points and append a `RedemptionTransaction` with the model
defaults (`status="PENDING"`). -/
def redeemPost (st : State) (redemption_id : ℕ) (now : ℤ) : Except Err State :=
  match st.redemptionOptions.find? (fun r => r.id == redemption_id) with
  | none => .error .optionNotFound
  | some opt =>
    if st.points < opt.points_required then
      .error .insufficientPoints
    else
      .ok { st with
        points := st.points - opt.points_required,
        redemptions := st.redemptions ++
          [⟨st.nextId, 0, some opt.id, opt.points_required, .PENDING, now⟩],
        nextId := st.nextId + 1 }

/-- `RedemptionOptionDetailView.delete` (`rewards/views.py` lines 185-192)
combined with `RedemptionTransaction.redemption_option`'s
`on_delete=models.SET_NULL` (`rewards/models.py` line 49): the option row is
removed and every transaction referencing it keeps all its fields except the
reference, which becomes null. -/
def deleteRedemptionOption (st : State) (pk : ℕ) : Except Err State :=
  if st.redemptionOptions.any (fun r => r.id == pk) then
    .ok { st with
      redemptionOptions := st.redemptionOptions.filter (fun r => !(r.id == pk)),
      redemptions := st.redemptions.map (fun t =>
        if t.redemption_option == some pk then { t with redemption_option := none }
        else t) }
  else .error .optionNotFound

/-- The calendar date of an instant, as Python's `datetime.date()`: a floor
projection of the timeline onto whole days. -/
def dateOf (t : ℤ) : ℤ :=
  Int.fdiv t 86400

/-- `AddReviewView.post` (`review/views.py` lines 31-63, twin at
`customerend/views.py` lines 445-477): look up the order; reject when it
already has a review; reject when not fully paid; reject when today is not
the calendar date of `order.updated_at`; otherwise save the review. -/
def addReview (st : State) (oid : ℕ) (rating : ℕ) (now : ℤ) : Except Err State :=
  match st.orders.find? (fun o => o.id == oid) with
  | none => .error .orderNotFound
  | some order =>
    if st.reviews.any (fun r => r.order == oid) then
      .error .alreadyReviewed
    else if !order.is_paid then
      .error .notPaid
    else if !(dateOf order.updated_at == dateOf now) then
      .error .wrongDay
    else
      .ok { st with reviews := st.reviews ++ [⟨st.nextId, oid, rating⟩],
                    nextId := st.nextId + 1 }

/-- `UpdateReviewView.patch` (`review/views.py` lines 102-124): look up the
review; reject when today is not the calendar date of the reviewed order's
`updated_at`; otherwise overwrite the review's fields. -/
def updateReview (st : State) (review_id : ℕ) (rating : ℕ) (now : ℤ) :
    Except Err State :=
  match st.reviews.find? (fun r => r.id == review_id) with
  | none => .error .reviewNotFound
  | some r =>
    match st.orders.find? (fun o => o.id == r.order) with
    | none => .error .orderNotFound
    | some order =>
      if !(dateOf order.updated_at == dateOf now) then
        .error .wrongDay
      else
        .ok { st with reviews := st.reviews.map (fun r2 =>
          if r2.id == review_id then { r2 with rating := rating } else r2) }

/-- The two error responses the spec's single `ReviewWindowClosedError`
covers: the "only fully paid orders" rejection and the "same day" rejection
(both 400 responses of `AddReviewView` / `UpdateReviewView`). -/
def Err.windowClosed : Err → Prop
  | .notPaid => True
  | .wrongDay => True
  | _ => False

/-! Interleaving model of two concurrent `RedeemLoyaltyPointsAPIView.post`
requests against the same `CustomerLoyaltyPoint` row.  Each request first
reads the balance into its own model instance, then — acting on that possibly
stale copy — performs the `points < points_required` check and, when it
passes, writes back `read − cost` and inserts a `RedemptionTransaction`.
The view takes no lock and uses no atomic update expression, so the two
storage accesses of a request can be separated by the other request's. -/

/-- One in-flight redeem request: its cost, the balance it has read (if it
has reached that step) and its outcome (if finished: `true` = success,
`false` = the insufficient-points rejection). -/
structure RedeemThread where
  cost : ℕ
  readVal : Option ℕ
  result : Option Bool
deriving DecidableEq

/-- The shared rows: the loyalty balance and how many redemption
transactions have been inserted. -/
structure RedeemShared where
  points : ℕ
  txCount : ℕ
deriving DecidableEq

/-- Run the next atomic storage access of one request: first the balance
read, then the check-and-commit acting on the stale read value. -/
def redeemStep (sh : RedeemShared) (t : RedeemThread) : RedeemShared × RedeemThread :=
  match t.readVal, t.result with
  | none, _ => (sh, { t with readVal := some sh.points })
  | some v, none =>
    if v < t.cost then
      (sh, { t with result := some false })
    else
      ({ points := v - t.cost, txCount := sh.txCount + 1 }, { t with result := some true })
  | some _, some _ => (sh, t)

/-- Two concurrent redeem requests `a` and `b` over the shared rows. -/
structure RedeemRace where
  shared : RedeemShared
  a : RedeemThread
  b : RedeemThread
deriving DecidableEq

/-- Scheduler: `true` runs the next step of request `a`, `false` of `b`. -/
def raceStep (r : RedeemRace) (pickA : Bool) : RedeemRace :=
  if pickA then
    let p := redeemStep r.shared r.a
    { r with shared := p.1, a := p.2 }
  else
    let p := redeemStep r.shared r.b
    { r with shared := p.1, b := p.2 }

/-- Run a whole schedule of interleaving choices. -/
def runRace (r : RedeemRace) : List Bool → RedeemRace
  | [] => r
  | c :: cs => runRace (raceStep r c) cs

/-- Scenario D of the spec: balance 50, two requests each costing 40. -/
def initRace : RedeemRace :=
  ⟨⟨50, 0⟩, ⟨40, none, none⟩, ⟨40, none, none⟩⟩

/-- PricingPolicy as worded by the spec (§4.1): `basePrice × (1 − pct/100)`
when `start ≤ now < end`, else `basePrice`; a malformed window (`end ≤
start`) satisfies no `now` and is therefore never active.  Kept for
comparison against the source's `CartLine.price`. -/
def specEffectivePrice (basePrice pct : ℚ) (s e now : ℤ) : ℚ :=
  if s ≤ now ∧ now < e then basePrice * (1 - pct / 100) else basePrice

/-- `is_paid` monotonicity between two snapshots of the database: every order
of `pre` that is paid stays paid in every `post` row carrying its id. -/
def paidMono (pre post : State) : Prop :=
  ∀ o ∈ pre.orders, o.is_paid = true → ∀ o' ∈ post.orders, o'.id = o.id → o'.is_paid = true

/-! Concrete fixtures used by counterexamples and witnesses. -/

/-- An empty single-customer database with every catalog item priced 500. -/
def baseState : State :=
  { itemPrice := fun _ => 500
    offers := fun _ => none
    cartLines := []
    cart_total := 0
    orders := []
    points := 0
    pointsTxs := []
    redemptionOptions := []
    redemptions := []
    reviews := []
    tables := []
    nextId := 1 }

/-- Fixture for C1: a cart line over item 1 (base price 500) that carries a
20% offer whose window is `[0, 10]`. -/
def stC1 : State :=
  { baseState with offers := fun _ => some ⟨20, 0, 10⟩,
                   cartLines := [⟨1, 1, 1⟩], cart_total := 400, nextId := 2 }

/-- The cart line of `stC1`. -/
def lineC1 : CartLine := ⟨1, 1, 1⟩

/-- Fixture for C2: a one-line cart (item 1, quantity 2) totalling 1000. -/
def stC2 : State :=
  { baseState with cartLines := [⟨1, 1, 2⟩], cart_total := 1000, nextId := 2 }

/-- The state after placing the order of `stC2` at instant 5. -/
def stC2place : State :=
  match placeOrder stC2 5 with
  | .ok p => p.2
  | .error _ => stC2

/-- Fixture order for C3: unpaid, total 250. -/
def orderC3 : Order := ⟨1, 250, false, .PENDING, none, [], 0⟩

/-- Fixture for C3: the unpaid order plus dining table 7. -/
def stC3 : State :=
  { baseState with orders := [orderC3], tables := [7], nextId := 2 }

/-- Fixture reward for C4: costs 40 points. -/
def optC4 : RedemptionOption := ⟨1, 40⟩

/-- Fixture for C4: balance 50 and the 40-point reward on offer. -/
def stC4 : State :=
  { baseState with points := 50, redemptionOptions := [optC4], nextId := 2 }

/-- Fixture for C6: the state after adding item 1 (quantity 1) to the empty
cart of `baseState`. -/
def stC6a : State :=
  match addItemToCart baseState 1 1 with
  | .ok s => s
  | .error _ => baseState

/-- Fixture for C6: a 20% offer on item 1 arrives after the cart was built;
no signal refreshes the cached total. -/
def stC6b : State := setOffer stC6a 1 ⟨20, 0, 100⟩

/-- Fixture order for C7: already delivered. -/
def orderC7 : Order := ⟨1, 100, true, .DELIVERED, none, [], 0⟩

/-- Fixture for C7. -/
def stC7 : State :=
  { baseState with orders := [orderC7], nextId := 2 }

/-- The state after the admin writes status PENDING onto the delivered order
of `stC7`. -/
def stC7after : State :=
  match adminSetStatus stC7 1 .PENDING 99 with
  | .ok s => s
  | .error _ => stC7

/-- Fixture order for C8: paid, `updated_at` on calendar day 1. -/
def orderC8 : Order := ⟨1, 300, true, .PENDING, some 7, [], 86400⟩

/-- Fixture for C8 with an existing review of that order. -/
def stC8 : State :=
  { baseState with orders := [orderC8], tables := [7],
                   reviews := [⟨2, 1, 5⟩], nextId := 3 }

/-- Fixture order for C9: paid. -/
def orderC9 : Order := ⟨1, 100, true, .PENDING, some 7, [], 0⟩

/-- Fixture for C9. -/
def stC9 : State :=
  { baseState with orders := [orderC9], nextId := 2 }

/-- Fixture transaction for C10: references reward 1. -/
def txC10 : RedemptionTx := ⟨5, 0, some 1, 40, .PENDING, 3⟩

/-- Fixture for C10: reward 1 exists and has been redeemed once. -/
def stC10 : State :=
  { baseState with redemptionOptions := [⟨1, 40⟩], redemptions := [txC10], nextId := 6 }

/-! Helper lemmas. -/

/-- After a signal-driven recache, the viewed total is the fresh sum. -/
theorem viewCartTotal_recache (s : State) :
    viewCartTotal (recacheTotal s) = freshCartTotal (recacheTotal s) := rfl

/-- Decimal floor-division by a nonnegative dividend is the floor. -/
theorem truncQ_eq_floor (x : ℚ) (hx : 0 ≤ x) : truncQ x = ⌊x⌋ := by
  unfold truncQ
  rw [if_pos hx]

/-- The award helper adds exactly `truncQ (total / 100)` (clamped at zero)
points to the balance. -/
theorem award_points_eq (st : State) (total : ℚ) :
    (award_customer_points st total).points =
      st.points + (truncQ (total / 100)).toNat := by
  by_cases h : 0 < truncQ (total / 100)
  · simp [award_customer_points, h]
  · simp [award_customer_points, h, Int.toNat_of_nonpos (le_of_not_lt h)]

/-- The award helper never touches the orders table. -/
theorem award_orders_eq (st : State) (total : ℚ) :
    (award_customer_points st total).orders = st.orders := by
  by_cases h : 0 < truncQ (total / 100)
  · simp [award_customer_points, h]
  · simp [award_customer_points, h]

/-- With a positive points yield the award helper appends one transaction. -/
theorem award_txs_pos (st : State) (total : ℚ) (h : 0 < truncQ (total / 100)) :
    (award_customer_points st total).pointsTxs =
      st.pointsTxs ++ [⟨total, (truncQ (total / 100)).toNat⟩] := by
  simp [award_customer_points, h]

/-- With a nonpositive points yield the award helper is a no-op. -/
theorem award_nonpos (st : State) (total : ℚ) (h : truncQ (total / 100) ≤ 0) :
    award_customer_points st total = st := by
  simp [award_customer_points, not_lt_of_le h]

/-- Searching by id commutes with an id-preserving per-row update. -/
theorem find?_map_preserving (l : List Order) (oid : ℕ) (g : Order → Order)
    (hg : ∀ o, (g o).id = o.id) :
    (l.map g).find? (fun o => o.id == oid) =
      (l.find? (fun o => o.id == oid)).map g := by
  have hp : ((fun o : Order => o.id == oid) ∘ g) = (fun o : Order => o.id == oid) :=
    funext fun o => by simp [Function.comp, hg]
  rw [List.find?_map, hp]

/-- The per-order update applied by a successful payment save. -/
def paySet (oid t : ℕ) (now : ℤ) (o : Order) : Order :=
  if o.id == oid then
    { o with is_paid := true, dining_table := some t, updated_at := now }
  else o

/-- Unfolding of a successful `paymentPost`: award the points, then save the
order as paid with its table attached. -/
theorem paymentPost_ok (st : State) (oid t : ℕ) (now : ℤ) (order : Order)
    (hfind : st.orders.find? (fun o => o.id == oid) = some order)
    (hunpaid : order.is_paid = false)
    (htab : st.tables.contains t = true) :
    paymentPost st oid (some t) now =
      .ok { award_customer_points st order.total_price with
            orders := (award_customer_points st order.total_price).orders.map
              (paySet oid t now) } := by
  have htab' : t ∈ st.tables := by simpa using htab
  unfold paymentPost paySet
  rw [hfind]
  simp [hunpaid, htab']

/-! Claim theorems. -/

/-- C1 (counterexample): at `now = 20` the offer window `[0, 10]` of `stC1`
is inactive, yet `CartItem.price` still discounts item 1 from 500 to 400,
while the spec's effective price is the base price 500. -/
theorem claim_C1_counterexample :
    SpecialOffer.is_active ⟨20, 0, 10⟩ 20 = false ∧
    CartLine.price stC1 lineC1 = 400 ∧
    specEffectivePrice 500 20 0 10 20 = 500 ∧
    CartLine.price stC1 lineC1 ≠ specEffectivePrice 500 20 0 10 20 := by
  refine ⟨by decide, ?_, ?_, ?_⟩ <;>
    norm_num [CartLine.price, specEffectivePrice, stC1, lineC1, baseState]

/-- C1 (amended): the unit price used in cart pricing is
`basePrice × (1 − pct/100)` exactly when a `SpecialOffer` row for the item
exists — irrespective of `now`, of the offer's window, and of
`SpecialOffer.is_active` — and the base price otherwise. -/
theorem claim_C1 (st : State) (l : CartLine) :
    CartLine.price st l =
      match st.offers l.fooditem with
      | some o => st.itemPrice l.fooditem * (1 - o.discount_percentage / 100)
      | none => st.itemPrice l.fooditem := by
  unfold CartLine.price
  cases h : st.offers l.fooditem <;> simp [h]
  ring

/-- C5 (counterexample): under the alternating interleaving (read A, read B,
commit A, commit B) both 40-point redeem calls against the 50-point balance
succeed — two redemption transactions are inserted while the balance drops
by only 40, refuting "exactly one call succeeds". -/
theorem claim_C5_counterexample :
    (runRace initRace [true, false, true, false]).a.result = some true ∧
    (runRace initRace [true, false, true, false]).b.result = some true ∧
    (runRace initRace [true, false, true, false]).shared = ⟨10, 2⟩ := by decide

/-- C5 (amended): when the two redeem calls run serially, exactly one
succeeds, the other is rejected for insufficient points, and the final
balance is 10 with one transaction; but the balance check and the deduction
are not one atomic read-modify-write, so the alternating interleaving lets
both calls succeed (final balance still 10, two transactions — a lost
update, though the balance never goes negative). -/
theorem claim_C5 :
    ((runRace initRace [true, true, false, false]).a.result = some true ∧
     (runRace initRace [true, true, false, false]).b.result = some false ∧
     (runRace initRace [true, true, false, false]).shared = ⟨10, 1⟩) ∧
    ((runRace initRace [true, false, true, false]).a.result = some true ∧
     (runRace initRace [true, false, true, false]).b.result = some true ∧
     (runRace initRace [true, false, true, false]).shared = ⟨10, 2⟩) := by decide

/-- C6 (counterexample): add item 1 (price 500) to the empty cart — the
cached total becomes 500 — then let a 20% offer on item 1 arrive: the viewed
total stays 500 while the fresh per-line sum is 400, so a stale total is
observable after a discount change. -/
theorem claim_C6_counterexample :
    viewCartTotal stC6b = 500 ∧ freshCartTotal stC6b = 400 ∧
    viewCartTotal stC6b ≠ freshCartTotal stC6b := by
  norm_num [stC6b, stC6a, baseState, addItemToCart, setOffer, recacheTotal,
    freshCartTotal, viewCartTotal, CartLine.total_price, CartLine.price]

/-- C6 (amended): the total returned by the cart view is the cached
`Cart.total_price`, which the `CartItem` save/delete signals refresh — so
after any successful line addition, quantity update or deletion the viewed
total equals the fresh sum `Σ effectivePrice × quantity`; but an offer
change triggers no refresh, leaving the cached total untouched. -/
theorem claim_C6 (st st1 st2 st3 : State) (fooditem quantity lineId itm : ℕ)
    (o : SpecialOffer) :
    (addItemToCart st fooditem quantity = .ok st1 →
      viewCartTotal st1 = freshCartTotal st1) ∧
    (updateCartItem st lineId quantity = .ok st2 →
      viewCartTotal st2 = freshCartTotal st2) ∧
    (deleteCartItem st lineId = .ok st3 →
      viewCartTotal st3 = freshCartTotal st3) ∧
    viewCartTotal (setOffer st itm o) = viewCartTotal st := by
  refine ⟨?_, ?_, ?_, rfl⟩ <;> intro h
  · unfold addItemToCart at h
    split at h
    · exact Except.noConfusion h
    · injection h with h
      exact h ▸ viewCartTotal_recache _
  · unfold updateCartItem at h
    split at h
    · injection h with h
      exact h ▸ viewCartTotal_recache _
    · exact Except.noConfusion h
  · unfold deleteCartItem at h
    split at h
    · injection h with h
      exact h ▸ viewCartTotal_recache _
    · exact Except.noConfusion h

/-- C6 (witness): the amended theorem applied to adding item 1 to the empty
cart of `baseState`. -/
theorem claim_C6_witness : viewCartTotal stC6a = freshCartTotal stC6a :=
  (claim_C6 baseState stC6a baseState baseState 1 1 0 1 ⟨20, 0, 100⟩).1 rfl

/-- C2 (counterexample): place the one-line cart of `stC2`.  The created
order's `order_items` still holds the key of the deleted cart row, so the
snapshot it can be resolved to is empty — no line's item, quantity or unit
price at placement time is preserved anywhere. -/
theorem claim_C2_counterexample :
    stC2.cartLines = [⟨1, 1, 2⟩] ∧
    stC2place.orders.map (fun o => o.order_items) = [[1]] ∧
    stC2place.orders.map (fun o => orderSnapshot stC2place o) = [[]] ∧
    stC2place.cartLines = [] := by
  exact ⟨rfl, rfl, rfl, rfl⟩

/-- C2 (amended): placing with an empty cart fails with the empty-cart error
and creates no order; placing a non-empty cart creates one order whose
`total_price` is the cart's cached total, with status PENDING and
`is_paid = false`, and deletes every cart line, leaving the cart with zero
lines and total 0 — but the order keeps no resolvable line snapshot: its
`order_items` keys point at the just-deleted rows and no per-line unit price
is recorded. -/
theorem claim_C2 (st : State) (now : ℤ) :
    (st.cartLines = [] → placeOrder st now = .error .emptyCart) ∧
    (st.cartLines ≠ [] → ∃ st' : State, placeOrder st now = .ok (st.nextId, st') ∧
      ∃ o : Order, st'.orders = st.orders ++ [o] ∧
        o.total_price = st.cart_total ∧ o.is_paid = false ∧ o.status = .PENDING ∧
        o.order_items = st.cartLines.map (fun l => l.id) ∧
        st'.cartLines = [] ∧ viewCartTotal st' = 0 ∧ orderSnapshot st' o = [] ∧
        st'.points = st.points ∧ st'.pointsTxs = st.pointsTxs) := by
  constructor
  · intro h
    simp [placeOrder, h]
  · intro h
    unfold placeOrder
    rw [if_neg (by simpa using h)]
    exact ⟨_, rfl, _, rfl, rfl, rfl, rfl, rfl, rfl, rfl, rfl, rfl, rfl⟩

/-- C3: confirming payment of an already-paid order is rejected with the
already-paid error (a rejection returns no new state, so nothing is awarded);
the first successful confirmation marks the order paid and raises the
balance by `floor(total_price / 100)`, appending exactly one transaction
when that quotient is positive and recording nothing — without error — when
it is zero; any later confirmation of the same order is rejected with the
already-paid error, leaving the balance unchanged. -/
theorem claim_C3 (st : State) (oid t : ℕ) (now : ℤ) (order : Order)
    (hfind : st.orders.find? (fun o => o.id == oid) = some order)
    (htotal : 0 ≤ order.total_price) :
    (order.is_paid = true → ∀ dt, paymentPost st oid dt now = .error .alreadyPaid) ∧
    (order.is_paid = false → st.tables.contains t = true →
      ∃ st', paymentPost st oid (some t) now = .ok st' ∧
        st'.points = st.points + (⌊order.total_price / 100⌋).toNat ∧
        (⌊order.total_price / 100⌋ = 0 →
          st'.points = st.points ∧ st'.pointsTxs = st.pointsTxs) ∧
        (0 < ⌊order.total_price / 100⌋ →
          st'.pointsTxs = st.pointsTxs ++
            [⟨order.total_price, (⌊order.total_price / 100⌋).toNat⟩]) ∧
        (∀ o' ∈ st'.orders, o'.id = oid → o'.is_paid = true) ∧
        (∀ dt2 : Option ℕ, ∀ now2 : ℤ,
          paymentPost st' oid dt2 now2 = .error .alreadyPaid)) := by
  have htr : truncQ (order.total_price / 100) = ⌊order.total_price / 100⌋ :=
    truncQ_eq_floor _ (div_nonneg htotal (by norm_num))
  constructor
  · intro hpaid dt
    unfold paymentPost
    rw [hfind]
    simp [hpaid]
  · intro hunpaid htab
    refine ⟨_, paymentPost_ok st oid t now order hfind hunpaid htab, ?_, ?_, ?_, ?_, ?_⟩
    · show (award_customer_points st order.total_price).points = _
      rw [award_points_eq, htr]
    · intro h0
      have hle : truncQ (order.total_price / 100) ≤ 0 := by rw [htr, h0]
      constructor
      · show (award_customer_points st order.total_price).points = st.points
        rw [award_nonpos _ _ hle]
      · show (award_customer_points st order.total_price).pointsTxs = st.pointsTxs
        rw [award_nonpos _ _ hle]
    · intro hpos
      have hpos' : 0 < truncQ (order.total_price / 100) := by rw [htr]; exact hpos
      show (award_customer_points st order.total_price).pointsTxs = _
      rw [award_txs_pos _ _ hpos', htr]
    · intro o' ho' hid
      have ho2 : o' ∈ (st.orders.map (paySet oid t now)) := by
        have := ho'
        rw [show ({ award_customer_points st order.total_price with
              orders := (award_customer_points st order.total_price).orders.map
                (paySet oid t now) } : State).orders =
            (award_customer_points st order.total_price).orders.map (paySet oid t now)
          from rfl, award_orders_eq] at this
        exact this
      obtain ⟨o2, ho2m, rfl⟩ := List.mem_map.mp ho2
      by_cases h2 : (o2.id == oid) = true
      · unfold paySet
        rw [if_pos h2]
      · exfalso
        apply h2
        unfold paySet at hid
        rw [if_neg h2] at hid
        simpa using hid
    · intro dt2 now2
      have hgid : ∀ o : Order, (paySet oid t now o).id = o.id := by
        intro o
        unfold paySet
        split <;> rfl
      have hbeq : (order.id == oid) = true := by
        have h := List.find?_some hfind
        simpa using h
      have hfind2 :
          ({ award_customer_points st order.total_price with
             orders := (award_customer_points st order.total_price).orders.map
               (paySet oid t now) } : State).orders.find? (fun o => o.id == oid) =
            some (paySet oid t now order) := by
        show ((award_customer_points st order.total_price).orders.map
          (paySet oid t now)).find? (fun o => o.id == oid) = _
        rw [award_orders_eq, find?_map_preserving _ _ _ hgid, hfind]
        rfl
      unfold paymentPost
      rw [hfind2]
      unfold paySet
      rw [if_pos hbeq]
      rfl

/-- C3 (witness): the theorem applied to the unpaid 250-total order of
`stC3`, paid at table 7. -/
theorem claim_C3_witness :
    orderC3.is_paid = false ∧ stC3.tables.contains 7 = true ∧
    (∃ st', paymentPost stC3 1 (some 7) 11 = .ok st' ∧
      st'.points = stC3.points + (⌊orderC3.total_price / 100⌋).toNat ∧
      (⌊orderC3.total_price / 100⌋ = 0 →
        st'.points = stC3.points ∧ st'.pointsTxs = stC3.pointsTxs) ∧
      (0 < ⌊orderC3.total_price / 100⌋ →
        st'.pointsTxs = stC3.pointsTxs ++
          [⟨orderC3.total_price, (⌊orderC3.total_price / 100⌋).toNat⟩]) ∧
      (∀ o' ∈ st'.orders, o'.id = 1 → o'.is_paid = true) ∧
      (∀ dt2 : Option ℕ, ∀ now2 : ℤ,
        paymentPost st' 1 dt2 now2 = .error .alreadyPaid)) :=
  ⟨rfl, rfl,
    (claim_C3 stC3 1 7 11 orderC3 rfl (by norm_num [orderC3])).2 rfl rfl⟩

/-- C4: with the reward resolvable, redeeming fails with the
insufficient-points error exactly when the balance is below
`points_required` (and a failure returns no new state, leaving balance and
history untouched); otherwise it deducts exactly `points_required` — so the
old balance is the new one plus the cost, never negative — and appends one
PENDING redemption transaction recording that cost, touching neither the
award history nor the orders. -/
theorem claim_C4 (st : State) (rid : ℕ) (now : ℤ) (opt : RedemptionOption)
    (hfind : st.redemptionOptions.find? (fun r => r.id == rid) = some opt) :
    (redeemPost st rid now = .error .insufficientPoints ↔
      st.points < opt.points_required) ∧
    (opt.points_required ≤ st.points →
      ∃ st', redeemPost st rid now = .ok st' ∧
        st'.points + opt.points_required = st.points ∧
        st'.redemptions = st.redemptions ++
          [⟨st.nextId, 0, some opt.id, opt.points_required, .PENDING, now⟩] ∧
        st'.pointsTxs = st.pointsTxs ∧ st'.orders = st.orders) := by
  constructor
  · constructor
    · intro h
      by_contra hlt
      unfold redeemPost at h
      rw [hfind] at h
      dsimp only at h
      rw [if_neg hlt] at h
      exact Except.noConfusion h
    · intro hlt
      unfold redeemPost
      rw [hfind]
      dsimp only
      rw [if_pos hlt]
  · intro hge
    unfold redeemPost
    rw [hfind]
    dsimp only
    rw [if_neg (not_lt_of_le hge)]
    refine ⟨_, rfl, ?_, rfl, rfl, rfl⟩
    exact Nat.sub_add_cancel hge

/-- C4 (witness): the theorem applied to the 50-point balance and 40-point
reward of `stC4`. -/
theorem claim_C4_witness :
    optC4.points_required ≤ stC4.points ∧
    (∃ st', redeemPost stC4 1 9 = .ok st' ∧
      st'.points + optC4.points_required = stC4.points ∧
      st'.redemptions = stC4.redemptions ++
        [⟨stC4.nextId, 0, some optC4.id, optC4.points_required, .PENDING, 9⟩] ∧
      st'.pointsTxs = stC4.pointsTxs ∧ st'.orders = stC4.orders) :=
  ⟨by decide, (claim_C4 stC4 1 9 optC4 rfl).2 (by decide)⟩

/-- C7 (counterexample): the admin status write on the DELIVERED order of
`stC7` sets it back to PENDING — a strictly lower status — and succeeds,
changing the order instead of failing with any invalid-transition error. -/
theorem claim_C7_counterexample :
    statusRank .PENDING < statusRank .DELIVERED ∧
    stC7.orders.map (fun o => o.status) = [.DELIVERED] ∧
    adminSetStatus stC7 1 .PENDING 99 = .ok stC7after ∧
    stC7after.orders.map (fun o => o.status) = [.PENDING] := by
  exact ⟨by decide, rfl, rfl, rfl⟩

/-- C7 (amended): across the core operations (placing, payment confirmation,
cancellation, admin status write) `is_paid` is monotone — a paid order is
never reverted; but the repository has no status-transition validation: the
only status write it offers (a plain model save through the Django admin)
succeeds for any requested status, including lower-or-equal ones, with no
invalid-transition error. -/
theorem claim_C7 (st : State) (oid : ℕ) (dt : Option ℕ) (s : OrderStatus)
    (now nowp : ℤ) (p : ℕ × State) (st1 st3 st4 : State)
    (hnodup : (st.orders.map (fun o => o.id)).Nodup)
    (hfresh : ∀ o ∈ st.orders, o.id < st.nextId) :
    (placeOrder st now = .ok p → paidMono st p.2) ∧
    (paymentPost st oid dt nowp = .ok st1 → paidMono st st1) ∧
    (cancelOrder st oid = .ok st3 → paidMono st st3) ∧
    (adminSetStatus st oid s now = .ok st4 → paidMono st st4 ∧
      ∀ o' ∈ st4.orders, o'.id = oid → o'.status = s) := by
  have hinj : ∀ x ∈ st.orders, ∀ y ∈ st.orders, x.id = y.id → x = y := by
    intro x hx y hy hxy
    exact List.inj_on_of_nodup_map hnodup hx hy hxy
  refine ⟨?_, ?_, ?_, ?_⟩
  · intro h
    unfold placeOrder at h
    split at h
    · exact Except.noConfusion h
    · injection h with h
      subst h
      intro o ho hpaid o' ho' hid
      rcases List.mem_append.mp ho' with hmem | hmem
      · rw [hinj o' hmem o ho hid]
        exact hpaid
      · rw [List.mem_singleton] at hmem
        subst hmem
        have hlt := hfresh o ho
        rw [← hid] at hlt
        exact absurd hlt (lt_irrefl _)
  · intro h
    cases hf : st.orders.find? (fun o => o.id == oid) with
    | none =>
      unfold paymentPost at h
      rw [hf] at h
      exact Except.noConfusion h
    | some ord =>
      by_cases hp : ord.is_paid = true
      · unfold paymentPost at h
        rw [hf] at h
        try dsimp only at h
        rw [if_pos hp] at h
        exact Except.noConfusion h
      · have hp' : ord.is_paid = false := by simpa using hp
        cases dt with
        | none =>
          unfold paymentPost at h
          rw [hf] at h
          try dsimp only at h
          rw [if_neg hp] at h
          exact Except.noConfusion h
        | some t =>
          by_cases ht : st.tables.contains t = true
          · rw [paymentPost_ok st oid t nowp ord hf hp' ht] at h
            injection h with h
            subst h
            intro o ho hpaid o' ho' hid
            have ho2 : o' ∈ (award_customer_points st ord.total_price).orders.map
                (paySet oid t nowp) := ho'
            rw [award_orders_eq] at ho2
            obtain ⟨o2, ho2m, rfl⟩ := List.mem_map.mp ho2
            have hids : (paySet oid t nowp o2).id = o2.id := by
              unfold paySet
              split <;> rfl
            have hid2 : o2.id = o.id := by rwa [hids] at hid
            rw [hinj o2 ho2m o ho hid2]
            unfold paySet
            split
            · rfl
            · exact hpaid
          · unfold paymentPost at h
            rw [hf] at h
            try dsimp only at h
            rw [if_neg hp] at h
            try dsimp only at h
            rw [if_neg ht] at h
            exact Except.noConfusion h
  · intro h
    unfold cancelOrder at h
    cases hf : st.orders.find? (fun o => o.id == oid && !o.is_paid) with
    | none =>
      rw [hf] at h
      exact Except.noConfusion h
    | some ord =>
      rw [hf] at h
      try dsimp only at h
      injection h with h
      subst h
      intro o ho hpaid o' ho' hid
      have ho2 : o' ∈ st.orders.filter (fun o => !(o.id == oid && !o.is_paid)) := ho'
      rw [hinj o' (List.mem_filter.mp ho2).1 o ho hid]
      exact hpaid
  · intro h
    unfold adminSetStatus at h
    split at h
    · injection h with h
      subst h
      constructor
      · intro o ho hpaid o' ho' hid
        have ho2 : o' ∈ st.orders.map (fun o =>
            if o.id == oid then { o with status := s, updated_at := now } else o) := ho'
        obtain ⟨o2, ho2m, rfl⟩ := List.mem_map.mp ho2
        have hids : (if o2.id == oid then
            ({ o2 with status := s, updated_at := now } : Order) else o2).id = o2.id := by
          split <;> rfl
        have hid2 : o2.id = o.id := by
          have h3 := hid
          try dsimp only at h3
          rwa [hids] at h3
        rw [hinj o2 ho2m o ho hid2]
        try dsimp only
        split
        · exact hpaid
        · exact hpaid
      · intro o' ho' hid
        have ho2 : o' ∈ st.orders.map (fun o =>
            if o.id == oid then { o with status := s, updated_at := now } else o) := ho'
        obtain ⟨o2, ho2m, rfl⟩ := List.mem_map.mp ho2
        try dsimp only at hid ⊢
        by_cases h2 : (o2.id == oid) = true
        · rw [if_pos h2]
        · rw [if_neg h2] at hid ⊢
          exact absurd (beq_iff_eq.mpr hid) h2
    · exact Except.noConfusion h

/-- C7 (witness): the amended theorem applied to the backwards status write
of `stC7`: monotonicity of `is_paid` holds, and the DELIVERED→PENDING write
simply lands. -/
theorem claim_C7_witness :
    (stC7.orders.map (fun o => o.id)).Nodup ∧
    (paidMono stC7 stC7after ∧
      ∀ o' ∈ stC7after.orders, o'.id = 1 → o'.status = .PENDING) :=
  ⟨by decide,
    (claim_C7 stC7 1 none .PENDING 99 0 (0, stC7) stC7 stC7 stC7after (by decide)
      (by
        intro o ho
        simp only [stC7, baseState] at ho
        rw [List.mem_singleton] at ho
        subst ho
        decide)).2.2.2 rfl⟩

/-- C8: with the order resolvable, creating a review succeeds exactly when
the order is paid, `now` falls on the calendar date of the order's
`updated_at`, and no review of the order exists yet (so at most one review
per order is ever created); with no prior review but the window closed
(unpaid, or a different date) creation fails with one of the two rejections
the spec's `ReviewWindowClosedError` covers; with a prior review creation
fails with the already-reviewed rejection; updating an existing review on a
date other than that of the order's `updated_at` fails with the same-day
rejection. -/
theorem claim_C8 (st : State) (oid rid rating rating2 : ℕ) (now now2 : ℤ)
    (order : Order)
    (hfind : st.orders.find? (fun o => o.id == oid) = some order) :
    (∀ st', addReview st oid rating now = .ok st' →
      order.is_paid = true ∧ dateOf now = dateOf order.updated_at ∧
      st.reviews.any (fun r => r.order == oid) = false ∧
      st'.reviews = st.reviews ++ [⟨st.nextId, oid, rating⟩]) ∧
    (st.reviews.any (fun r => r.order == oid) = false →
      order.is_paid = true → dateOf order.updated_at = dateOf now →
      ∃ st', addReview st oid rating now = .ok st') ∧
    (st.reviews.any (fun r => r.order == oid) = true →
      addReview st oid rating now = .error .alreadyReviewed) ∧
    (st.reviews.any (fun r => r.order == oid) = false →
      (order.is_paid = false ∨ dateOf order.updated_at ≠ dateOf now) →
      ∃ e, addReview st oid rating now = .error e ∧ Err.windowClosed e) ∧
    (∀ r : Review, st.reviews.find? (fun r2 => r2.id == rid) = some r →
      r.order = oid → dateOf order.updated_at ≠ dateOf now2 →
      updateReview st rid rating2 now2 = .error .wrongDay) := by
  refine ⟨?_, ?_, ?_, ?_, ?_⟩
  · intro st' h
    unfold addReview at h
    rw [hfind] at h
    dsimp only at h
    by_cases hrev : st.reviews.any (fun r => r.order == oid) = true
    · rw [if_pos hrev] at h
      exact Except.noConfusion h
    · rw [if_neg hrev] at h
      have hrev' : st.reviews.any (fun r => r.order == oid) = false := by
        simpa using hrev
      by_cases hp : (!order.is_paid) = true
      · rw [if_pos hp] at h
        exact Except.noConfusion h
      · rw [if_neg hp] at h
        have hp' : order.is_paid = true := by simpa using hp
        by_cases hd : (!(dateOf order.updated_at == dateOf now)) = true
        · rw [if_pos hd] at h
          exact Except.noConfusion h
        · rw [if_neg hd] at h
          have hd' : dateOf order.updated_at = dateOf now := by simpa using hd
          injection h with h
          subst h
          exact ⟨hp', hd'.symm, hrev', rfl⟩
  · intro hrev hp hd
    unfold addReview
    rw [hfind]
    dsimp only
    rw [if_neg (by simp [hrev]), if_neg (by simp [hp]), if_neg (by simp [hd])]
    exact ⟨_, rfl⟩
  · intro hrev
    unfold addReview
    rw [hfind]
    dsimp only
    rw [if_pos hrev]
  · intro hrev hbad
    unfold addReview
    rw [hfind]
    dsimp only
    rw [if_neg (by simp [hrev])]
    by_cases hp : (!order.is_paid) = true
    · rw [if_pos hp]
      exact ⟨.notPaid, rfl, trivial⟩
    · rw [if_neg hp]
      have hp' : order.is_paid = true := by simpa using hp
      rcases hbad with hunpaid | hdate
      · rw [hp'] at hunpaid
        exact Bool.noConfusion hunpaid
      · rw [if_pos (by simp [hdate])]
        exact ⟨.wrongDay, rfl, trivial⟩
  · intro r hr hro hd
    unfold updateReview
    rw [hr]
    dsimp only
    rw [hro, hfind]
    dsimp only
    rw [if_pos (by simp [hd])]

/-- C8 (witness): on `stC8` — order 1 paid with `updated_at` on day 1 and
already reviewed — a second creation attempt on day 1 is rejected as
already-reviewed, and a review update attempted on day 2 is rejected with
the same-day error. -/
theorem claim_C8_witness :
    addReview stC8 1 4 86500 = .error .alreadyReviewed ∧
    updateReview stC8 2 1 172800 = .error .wrongDay :=
  ⟨(claim_C8 stC8 1 2 4 1 86500 172800 orderC8 rfl).2.2.1 rfl,
   (claim_C8 stC8 1 2 4 1 86500 172800 orderC8 rfl).2.2.2.2 ⟨2, 1, 5⟩ rfl rfl
     (by decide)⟩

/-- C9 (counterexample): cancelling the paid order of `stC9` answers the
404 "Order not found" rejection — not an already-paid error — because the
view's lookup is restricted to unpaid orders. -/
theorem claim_C9_counterexample :
    stC9.orders.map (fun o => o.is_paid) = [true] ∧
    cancelOrder stC9 1 = .error .orderNotFound ∧
    Err.orderNotFound ≠ Err.alreadyPaid := by
  exact ⟨rfl, rfl, by decide⟩

/-- C9 (amended): cancelling a paid order fails — but with the not-found
rejection (the paid order falls outside the unpaid-only lookup), not an
already-paid error — and leaves every order in place (a rejection returns no
new state); cancelling an unpaid order deletes exactly the unpaid orders
carrying that id and keeps all others. -/
theorem claim_C9 (st : State) (oid : ℕ) (order : Order)
    (hmem : order ∈ st.orders) (hid : order.id = oid) :
    (order.is_paid = true →
      (∀ o ∈ st.orders, o.id = oid → o.is_paid = true) →
      cancelOrder st oid = .error .orderNotFound) ∧
    (order.is_paid = false →
      ∃ st', cancelOrder st oid = .ok st' ∧
        order ∉ st'.orders ∧
        (∀ o' ∈ st'.orders, o' ∈ st.orders) ∧
        (∀ o' ∈ st.orders, o'.id = oid → o'.is_paid = false → o' ∉ st'.orders) ∧
        (∀ o' ∈ st.orders, o'.id ≠ oid ∨ o'.is_paid = true → o' ∈ st'.orders)) := by
  constructor
  · intro _ hall
    unfold cancelOrder
    have hnone : st.orders.find? (fun o => o.id == oid && !o.is_paid) = none := by
      rw [List.find?_eq_none]
      intro a ha
      simp only [Bool.and_eq_true, beq_iff_eq, Bool.not_eq_true', not_and]
      intro h1
      simp [hall a ha h1]
    rw [hnone]
  · intro hunpaid
    have hsome : (st.orders.find? (fun o => o.id == oid && !o.is_paid)).isSome = true := by
      rw [List.find?_isSome]
      exact ⟨order, hmem, by simp [hid, hunpaid]⟩
    obtain ⟨ord, hord⟩ := Option.isSome_iff_exists.mp hsome
    unfold cancelOrder
    rw [hord]
    dsimp only
    refine ⟨_, rfl, ?_, ?_, ?_, ?_⟩
    · intro hmem'
      have hkeep := (List.mem_filter.mp hmem').2
      simp [hid, hunpaid] at hkeep
    · intro o' ho'
      exact (List.mem_filter.mp ho').1
    · intro o' _ h1 h2 hmem'
      have hkeep := (List.mem_filter.mp hmem').2
      simp [h1, h2] at hkeep
    · intro o' ho' hcond
      apply List.mem_filter.mpr
      refine ⟨ho', ?_⟩
      rcases hcond with h | h
      · simp [h]
      · simp [h]

/-- C9 (witness): the amended theorem applied to the paid order of `stC9`. -/
theorem claim_C9_witness :
    orderC9.is_paid = true ∧ cancelOrder stC9 1 = .error .orderNotFound :=
  ⟨rfl,
    (claim_C9 stC9 1 orderC9 (List.mem_singleton.mpr rfl) rfl).1 rfl
      (by
        intro o ho h
        have h2 := List.mem_singleton.mp ho
        subst h2
        rfl)⟩

/-- C10: deleting an existing `RedemptionOption` succeeds and maps every
redemption transaction in place: the history keeps its length, every
transaction survives with id, customer, points_redeemed, status and
timestamp unchanged, references to the deleted reward become null
(`on_delete=SET_NULL`) and all other reward references are untouched; the
loyalty balance is untouched too. -/
theorem claim_C10 (st : State) (pk : ℕ)
    (hmem : st.redemptionOptions.any (fun r => r.id == pk) = true) :
    ∃ st', deleteRedemptionOption st pk = .ok st' ∧
      st'.redemptions.length = st.redemptions.length ∧
      st'.points = st.points ∧
      (∀ t ∈ st.redemptions,
        ∃ t' ∈ st'.redemptions, t'.id = t.id ∧ t'.customer = t.customer ∧
          t'.points_redeemed = t.points_redeemed ∧ t'.status = t.status ∧
          t'.created_at = t.created_at ∧
          (t.redemption_option = some pk → t'.redemption_option = none) ∧
          (t.redemption_option ≠ some pk →
            t'.redemption_option = t.redemption_option)) := by
  unfold deleteRedemptionOption
  rw [if_pos hmem]
  refine ⟨_, rfl, List.length_map _ _, rfl, ?_⟩
  intro t ht
  refine ⟨if t.redemption_option == some pk then
      { t with redemption_option := none } else t,
    List.mem_map.mpr ⟨t, ht, rfl⟩, ?_, ?_, ?_, ?_, ?_, ?_, ?_⟩
  · split <;> rfl
  · split <;> rfl
  · split <;> rfl
  · split <;> rfl
  · split <;> rfl
  · intro heq
    rw [if_pos (by simp [heq])]
  · intro hne
    rw [if_neg (by simp [hne])]

/-- C10 (witness): the theorem applied to deleting reward 1 of `stC10`,
which transaction `txC10` references. -/
theorem claim_C10_witness :
    ∃ st', deleteRedemptionOption stC10 1 = .ok st' ∧
      st'.redemptions.length = stC10.redemptions.length ∧
      st'.points = stC10.points ∧
      (∀ t ∈ stC10.redemptions,
        ∃ t' ∈ st'.redemptions, t'.id = t.id ∧ t'.customer = t.customer ∧
          t'.points_redeemed = t.points_redeemed ∧ t'.status = t.status ∧
          t'.created_at = t.created_at ∧
          (t.redemption_option = some 1 → t'.redemption_option = none) ∧
          (t.redemption_option ≠ some 1 →
            t'.redemption_option = t.redemption_option)) :=
  claim_C10 stC10 1 (by decide)

/-- C2 (witness): the amended theorem applied to the one-line cart `stC2`. -/
theorem claim_C2_witness :
    stC2.cartLines ≠ [] ∧
    (∃ st' : State, placeOrder stC2 5 = .ok (stC2.nextId, st') ∧
      ∃ o : Order, st'.orders = stC2.orders ++ [o] ∧
        o.total_price = stC2.cart_total ∧ o.is_paid = false ∧ o.status = .PENDING ∧
        o.order_items = stC2.cartLines.map (fun l => l.id) ∧
        st'.cartLines = [] ∧ viewCartTotal st' = 0 ∧ orderSnapshot st' o = [] ∧
        st'.points = stC2.points ∧ st'.pointsTxs = stC2.pointsTxs) :=
  ⟨by decide, (claim_C2 stC2 5).2 (by decide)⟩

end TastyMeals
